import Mathlib

/-!
Shallow embedding of the WebM-to-GIF conversion hook (`useWebmToGif`):
frame sampling, alpha-key mapping, GIF encoder configuration, progress
accounting and cooperative cancellation, translated from the TypeScript
source into executable Lean definitions, together with theorems settling
the specification's testable properties.
-/

namespace WebmToGif

/-- `const TRANSPARENT_COLOR = 0x00FF00;` -/
def TRANSPARENT_COLOR : Nat := 0x00FF00

/-- One RGBA sample of an `ImageData` buffer (`Uint8ClampedArray`, stride 4):
`data[j]`, `data[j+1]`, `data[j+2]`, `data[j+3]`. -/
structure Pixel where
  r : Nat
  g : Nat
  b : Nat
  a : Nat
deriving DecidableEq, Repr

/-- Red component of the colour key: `(TRANSPARENT_COLOR >> 16) & 0xFF`. -/
def colorKeyR : Nat := (TRANSPARENT_COLOR >>> 16) &&& 0xFF

/-- Green component of the colour key: `(TRANSPARENT_COLOR >> 8) & 0xFF`. -/
def colorKeyG : Nat := (TRANSPARENT_COLOR >>> 8) &&& 0xFF

/-- Blue component of the colour key: `TRANSPARENT_COLOR & 0xFF`. -/
def colorKeyB : Nat := TRANSPARENT_COLOR &&& 0xFF

/-- The per-pixel body of the alpha-key loop in `extractFrames`:
if `alpha < transparentThreshold` the RGB channels are overwritten with the
colour key and the alpha channel is set to `255`; otherwise the pixel is
left untouched (note: its alpha is NOT rewritten in that case). -/
def mapPixel (transparentThreshold : Nat) (p : Pixel) : Pixel :=
  if p.a < transparentThreshold then
    { r := colorKeyR, g := colorKeyG, b := colorKeyB, a := 255 }
  else
    p

/-- The alpha-key loop `for (let j = 0; j < data.length; j += 4)` applied to a
whole frame, pixel by pixel. -/
def mapFrame (transparentThreshold : Nat) (frame : List Pixel) : List Pixel :=
  frame.map (mapPixel transparentThreshold)

/-- `ConversionOptions` from the source (numbers modelled as rationals,
the 0–255 alpha cutoff as a natural number). -/
structure ConversionOptions where
  fps : ℚ
  quality : ℚ
  width : Option Nat
  height : Option Nat
  transparentThreshold : Nat

/-- The `stage` field of `ConversionProgress`. -/
inductive Stage
  | idle
  | extracting
  | encoding
  | complete
  | error
deriving DecidableEq, Repr

/-- `ConversionProgress` from the source. -/
structure ProgressState where
  stage : Stage
  progress : ℚ
  framesExtracted : Nat
  totalFrames : Nat
  message : String
deriving DecidableEq, Repr

/-- The decoder side of the `HTMLVideoElement`: its metadata plus, for each
seek timestamp, the RGBA raster that `drawImage`/`getImageData` yields once
the `seeked` event has fired at that timestamp. -/
structure Video where
  duration : ℚ
  videoWidth : Nat
  videoHeight : Nat
  frameAt : ℚ → List Pixel

/-- `const frameInterval = 1 / fps;` -/
def frameInterval (fps : ℚ) : ℚ := 1 / fps

/-- `const totalFrames = Math.floor(duration * fps);` -/
def totalFramesOf (duration fps : ℚ) : ℤ := ⌊duration * fps⌋

/-- The `setProgress` record written at the end of sampling iteration `i`
(0-based) when `totalFrames = n`. -/
def extractProgress (n : Nat) (i : Nat) : ProgressState :=
  { stage := Stage.extracting
    progress := (((i : ℚ) + 1) / (n : ℚ)) * 50
    framesExtracted := i + 1
    totalFrames := n
    message := "Extracting frame " ++ toString (i + 1) ++ " of " ++ toString n }

/-- Sampling iteration `i`: seek to `time = i * frameInterval`, rasterize the
decoded frame, and run the alpha-key loop over its pixels.  The pair records
the seek timestamp together with the mapped frame. -/
def sampledFrame (video : Video) (opts : ConversionOptions) (i : Nat) :
    ℚ × List Pixel :=
  ((i : ℚ) * frameInterval opts.fps,
   mapFrame opts.transparentThreshold
     (video.frameAt ((i : ℚ) * frameInterval opts.fps)))

/-- The sampling loop `for (let i = 0; i < totalFrames; i++)` of
`extractFrames`, starting at index `i` with `fuel` iterations left
(`fuel = totalFrames - i`).  `cancelled i` is the value of
`cancelledRef.current` observed by the check at the top of iteration `i`.
Returns the list of `setProgress` records emitted (in order) and either the
captured `(timestamp, frame)` list or the thrown error message. -/
def extractGo (video : Video) (opts : ConversionOptions) (n : Nat)
    (cancelled : Nat → Bool) :
    Nat → Nat → List ProgressState × Except String (List (ℚ × List Pixel))
  | 0, _ => ([], Except.ok [])
  | fuel + 1, i =>
    if cancelled i then
      ([], Except.error "Conversion cancelled")
    else
      (extractProgress n i :: (extractGo video opts n cancelled fuel (i + 1)).1,
       match (extractGo video opts n cancelled fuel (i + 1)).2 with
       | Except.error e => Except.error e
       | Except.ok fs => Except.ok (sampledFrame video opts i :: fs))

/-- `extractFrames`: computes `totalFrames = Math.floor(duration * fps)` and
runs the sampling loop from index 0. -/
def extractFrames (video : Video) (opts : ConversionOptions)
    (cancelled : Nat → Bool) :
    List ProgressState × Except String (List (ℚ × List Pixel)) :=
  extractGo video opts (totalFramesOf video.duration opts.fps).toNat cancelled
    (totalFramesOf video.duration opts.fps).toNat 0

/-- Encoder work parameter: `Math.max(1, Math.min(30, 31 - options.quality))`. -/
def gifQuality (quality : ℚ) : ℚ := max 1 (min 30 (31 - quality))

/-- Per-frame display delay: `Math.round(1000 / options.fps)` (for any real
argument JavaScript `Math.round x` equals `⌊x + 1/2⌋`). -/
def frameDelay (fps : ℚ) : ℤ := round ((1000 : ℚ) / fps)

/-- The options object of `gif.addFrame(frameCtx, { copy: true, delay, dispose: 2 })`. -/
structure GifFrameOptions where
  copy : Bool
  delay : ℤ
  dispose : Nat
deriving DecidableEq, Repr

/-- The `for (const frame of frames)` submission loop: every frame is handed
to the encoder with `copy: true`, the shared `delay`, and `dispose: 2`. -/
def addFrames (frames : List (List Pixel)) (fps : ℚ) :
    List (List Pixel × GifFrameOptions) :=
  frames.map (fun f => (f, { copy := true, delay := frameDelay fps, dispose := 2 }))

/-- Initial `useState` value of the progress record. -/
def idleState : ProgressState :=
  { stage := Stage.idle, progress := 0, framesExtracted := 0, totalFrames := 0
    message := "" }

/-- The `setProgress` record written at the start of `convert`. -/
def loadingState : ProgressState :=
  { stage := Stage.extracting, progress := 0, framesExtracted := 0
    totalFrames := 0, message := "Loading video..." }

/-- The `setProgress` record written by the `catch` block of `convert`. -/
def errorState (msg : String) : ProgressState :=
  { stage := Stage.error, progress := 0, framesExtracted := 0, totalFrames := 0
    message := msg }

/-- The `setProgress` record written just before the encoder is created,
with `n = frames.length`. -/
def encodingStart (n : Nat) : ProgressState :=
  { stage := Stage.encoding, progress := 50, framesExtracted := n
    totalFrames := n, message := "Encoding GIF..." }

/-- The `setProgress` record written by the `gif.on('progress', ...)` handler
for a reported fraction `p`. -/
def encodingEvent (n : Nat) (p : ℚ) : ProgressState :=
  { stage := Stage.encoding, progress := 50 + p * 50, framesExtracted := n
    totalFrames := n
    message := "Encoding GIF... " ++ toString (round (p * 100)) ++ "%" }

/-- The `setProgress` record written by the `gif.on('finished', ...)` handler. -/
def completeState (n : Nat) : ProgressState :=
  { stage := Stage.complete, progress := 100, framesExtracted := n
    totalFrames := n, message := "Conversion complete!" }

/-- External events of one `convert` run: whether the video loads, the
cancellation flag as observed at each cooperative check point, the fractions
reported by the encoder's progress events, whether the encoder was aborted
(which is how a `cancel()` call lands during encoding), and the finished
blob (modelled as an opaque number). -/
structure ConvertEnv where
  loadOk : Bool
  cancelled : Nat → Bool
  cancelledAfterExtract : Bool
  encodeEvents : List ℚ
  encodeAborted : Bool
  blob : Nat

/-- Observable outcome of one `convert` run: the ordered list of all
`setProgress` writes, the frames submitted to the encoder with their
per-frame options, and the promise's resolution (`ok blob`) or rejection
(`error message`). -/
structure ConvertResult where
  trace : List ProgressState
  submissions : List (List Pixel × GifFrameOptions)
  result : Except String Nat

/-- `convert`, following the source control flow: write the loading record;
load the video (failure ⇒ `catch` writes an error record and the promise
rejects); run `extractFrames` (a thrown cancellation also lands in `catch`);
re-check the cancellation flag; write the encoding record; submit every
frame via `addFrame`; then either the abort handler rejects with
`Conversion cancelled` or the finished handler writes the complete record
and resolves with the blob.  Note: the encoder promise is returned from
inside `try` without `await`, so its abort rejection bypasses the `catch`
block — on that path no further progress record is written. -/
def convert (video : Video) (opts : ConversionOptions) (env : ConvertEnv) :
    ConvertResult :=
  if env.loadOk then
    match (extractFrames video opts env.cancelled).2 with
    | Except.error e =>
      { trace := loadingState :: (extractFrames video opts env.cancelled).1 ++
          [errorState e]
        submissions := []
        result := Except.error e }
    | Except.ok framePairs =>
      if env.cancelledAfterExtract then
        { trace := loadingState :: (extractFrames video opts env.cancelled).1 ++
            [errorState "Conversion cancelled"]
          submissions := []
          result := Except.error "Conversion cancelled" }
      else
        if env.encodeAborted then
          { trace := loadingState :: (extractFrames video opts env.cancelled).1 ++
              encodingStart (framePairs.map Prod.snd).length ::
                env.encodeEvents.map (encodingEvent (framePairs.map Prod.snd).length)
            submissions := addFrames (framePairs.map Prod.snd) opts.fps
            result := Except.error "Conversion cancelled" }
        else
          { trace := loadingState :: (extractFrames video opts env.cancelled).1 ++
              encodingStart (framePairs.map Prod.snd).length ::
                env.encodeEvents.map (encodingEvent (framePairs.map Prod.snd).length) ++
              [completeState (framePairs.map Prod.snd).length]
            submissions := addFrames (framePairs.map Prod.snd) opts.fps
            result := Except.ok env.blob }
  else
    { trace := [loadingState, errorState "Failed to load video"]
      submissions := []
      result := Except.error "Failed to load video" }

/-- The full sequence of progress records a caller can observe over one run:
the initial idle record followed by every write `convert` performs. -/
def runTrace (video : Video) (opts : ConversionOptions) (env : ConvertEnv) :
    List ProgressState :=
  idleState :: (convert video opts env).trace

/-- Position of a stage in the pipeline order; `complete` and `error` are
both terminal. -/
def stageRank : Stage → Nat
  | Stage.idle => 0
  | Stage.extracting => 1
  | Stage.encoding => 2
  | Stage.complete => 3
  | Stage.error => 3

/-- Allowed consecutive pair of written stages: the pipeline order never
moves backwards, and nothing at all may follow a terminal stage. -/
def stageStep (a b : Stage) : Prop :=
  stageRank a ≤ stageRank b ∧ stageRank a < 3

/-! ### Lemmas about the sampling loop -/

/-- With the cancellation flag never set, the sampling loop runs all `fuel`
iterations, emitting one progress record and capturing one sampled frame per
index. -/
theorem extractGo_not_cancelled (video : Video) (opts : ConversionOptions)
    (n : Nat) :
    ∀ fuel i : Nat,
      extractGo video opts n (fun _ => false) fuel i =
        ((List.range fuel).map (fun k => extractProgress n (i + k)),
         Except.ok ((List.range fuel).map (fun k => sampledFrame video opts (i + k))))
  | 0, i => by simp [extractGo]
  | fuel + 1, i => by
    have ih := extractGo_not_cancelled video opts n fuel (i + 1)
    simp only [extractGo, Bool.false_eq_true, if_false, ih,
      List.range_succ_eq_map, List.map_cons, List.map_map, Nat.add_zero]
    refine Prod.ext ?_ ?_
    · simp only []
      congr 1
      refine List.map_congr_left ?_
      intro k _
      simp [Function.comp, Nat.succ_eq_add_one]
      congr 1
      omega
    · simp only []
      congr 2
      refine List.map_congr_left ?_
      intro k _
      simp [Function.comp, Nat.succ_eq_add_one]
      congr 1
      omega

/-- Every progress record the sampling loop writes has stage `extracting`. -/
theorem extractGo_trace_stage (video : Video) (opts : ConversionOptions)
    (n : Nat) (c : Nat → Bool) :
    ∀ fuel i : Nat, ∀ p ∈ (extractGo video opts n c fuel i).1,
      p.stage = Stage.extracting
  | 0, i => by simp [extractGo]
  | fuel + 1, i => by
    intro p hp
    by_cases h : c i = true
    · simp [extractGo, h] at hp
    · simp only [extractGo, h, if_false] at hp
      rcases List.mem_cons.mp hp with rfl | hp2
      · rfl
      · exact extractGo_trace_stage video opts n c fuel (i + 1) p hp2

/-- The only error the sampling loop can produce is `Conversion cancelled`. -/
theorem extractGo_error_msg (video : Video) (opts : ConversionOptions)
    (n : Nat) (c : Nat → Bool) :
    ∀ fuel i : Nat, ∀ e : String,
      (extractGo video opts n c fuel i).2 = Except.error e →
      e = "Conversion cancelled"
  | 0, i => by simp [extractGo]
  | fuel + 1, i => by
    intro e he
    by_cases h : c i = true
    · simp [extractGo, h] at he
      exact he.symm
    · simp only [extractGo, h, if_false] at he
      cases h2 : (extractGo video opts n c fuel (i + 1)).2 with
      | error e2 =>
        rw [h2] at he
        simp at he
        rw [← he]
        exact extractGo_error_msg video opts n c fuel (i + 1) e2 h2
      | ok fs =>
        rw [h2] at he
        simp at he

/-- If the cancellation flag reads `true` at a check point the loop will
reach, the loop throws `Conversion cancelled`. -/
theorem extractGo_cancelled (video : Video) (opts : ConversionOptions)
    (n : Nat) (c : Nat → Bool) :
    ∀ fuel i m : Nat, m < fuel → c (i + m) = true →
      (extractGo video opts n c fuel i).2 = Except.error "Conversion cancelled"
  | 0, i, m => by omega
  | fuel + 1, i, m => by
    intro hm hc
    by_cases h : c i = true
    · simp [extractGo, h]
    · have hm0 : m ≠ 0 := by
        intro h0
        rw [h0, Nat.add_zero] at hc
        exact h hc
      obtain ⟨m2, rfl⟩ : ∃ m2, m = m2 + 1 := ⟨m - 1, by omega⟩
      have ih := extractGo_cancelled video opts n c fuel (i + 1) m2 (by omega)
        (by rw [show i + 1 + m2 = i + (m2 + 1) by omega]; exact hc)
      simp [extractGo, h, ih]

/-- The cancellation flag is read at the top of every iteration: once the
flag reads `true` at check point `i + m`, at most `m` further frames are
captured (and hence at most `m` further progress records written). -/
theorem extractGo_trace_bounded (video : Video) (opts : ConversionOptions)
    (n : Nat) (c : Nat → Bool) :
    ∀ fuel i m : Nat, c (i + m) = true →
      (extractGo video opts n c fuel i).1.length ≤ m
  | 0, i, m => by simp [extractGo]
  | fuel + 1, i, m => by
    intro hc
    by_cases h : c i = true
    · simp [extractGo, h]
    · have hm0 : m ≠ 0 := by
        intro h0
        rw [h0, Nat.add_zero] at hc
        exact h hc
      obtain ⟨m2, rfl⟩ : ∃ m2, m = m2 + 1 := ⟨m - 1, by omega⟩
      have ih := extractGo_trace_bounded video opts n c fuel (i + 1) m2
        (by rw [show i + 1 + m2 = i + (m2 + 1) by omega]; exact hc)
      have hstep : (extractGo video opts n c (fuel + 1) i).1 =
          extractProgress n i :: (extractGo video opts n c fuel (i + 1)).1 := by
        simp [extractGo, h]
      rw [hstep, List.length_cons]
      omega

/-! ### Claims about the alpha-key mapping and the encoder parameters -/

/-- The components of the fixed colour key: saturated green `0x00FF00`. -/
theorem colorKey_components : colorKeyR = 0 ∧ colorKeyG = 255 ∧ colorKeyB = 0 := by
  decide

/-- Claim C3: for every pixel of every frame, if the input alpha is strictly
below the threshold the output RGB is exactly the fixed colour key, and if
the input alpha is at or above the threshold (equality included) the output
RGB is the input RGB unchanged. -/
theorem alphaKey_rgb (t : Nat) (frame : List Pixel) (i : Nat) (p : Pixel)
    (hp : frame[i]? = some p) :
    (mapFrame t frame)[i]? = some (mapPixel t p) ∧
    (p.a < t → (mapPixel t p).r = colorKeyR ∧ (mapPixel t p).g = colorKeyG ∧
      (mapPixel t p).b = colorKeyB) ∧
    (t ≤ p.a → (mapPixel t p).r = p.r ∧ (mapPixel t p).g = p.g ∧
      (mapPixel t p).b = p.b) := by
  refine ⟨?_, ?_, ?_⟩
  · simp [mapFrame, List.getElem?_map, hp]
  · intro h
    simp [mapPixel, h]
  · intro h
    simp [mapPixel, Nat.not_lt.mpr h]

/-- Witness for C3 at a concrete frame: one pixel below and one at/above a
threshold of 128. -/
theorem alphaKey_rgb_witness :
    ((mapFrame 128 [{ r := 9, g := 8, b := 7, a := 100 },
        { r := 1, g := 2, b := 3, a := 200 }])[0]? =
      some (mapPixel 128 { r := 9, g := 8, b := 7, a := 100 }) ∧
     ((100 : Nat) < 128 →
       (mapPixel 128 { r := 9, g := 8, b := 7, a := 100 }).r = colorKeyR ∧
       (mapPixel 128 { r := 9, g := 8, b := 7, a := 100 }).g = colorKeyG ∧
       (mapPixel 128 { r := 9, g := 8, b := 7, a := 100 }).b = colorKeyB) ∧
     ((128 : Nat) ≤ 100 →
       (mapPixel 128 { r := 9, g := 8, b := 7, a := 100 }).r = 9 ∧
       (mapPixel 128 { r := 9, g := 8, b := 7, a := 100 }).g = 8 ∧
       (mapPixel 128 { r := 9, g := 8, b := 7, a := 100 }).b = 7)) ∧
    ((mapFrame 128 [{ r := 9, g := 8, b := 7, a := 100 },
        { r := 1, g := 2, b := 3, a := 200 }])[1]? =
      some (mapPixel 128 { r := 1, g := 2, b := 3, a := 200 })) :=
  ⟨alphaKey_rgb 128 _ 0 _ (by decide),
   (alphaKey_rgb 128 [{ r := 9, g := 8, b := 7, a := 100 },
      { r := 1, g := 2, b := 3, a := 200 }] 1
      { r := 1, g := 2, b := 3, a := 200 } (by decide)).1⟩

/-- Claim C2 fails on the code: the alpha-key loop rewrites the alpha channel
only in its `alpha < transparentThreshold` branch, so a kept pixel's partial
alpha survives.  Concretely, a pixel with alpha 200 under threshold 128 still
has alpha 200 (not 255) after mapping. -/
theorem alphaKey_alpha_counterexample :
    ¬ (∀ (t : Nat) (frame : List Pixel), ∀ p ∈ mapFrame t frame, p.a = 255) :=
  fun h => by
    have h2 := h 128 [{ r := 10, g := 20, b := 30, a := 200 }]
      { r := 10, g := 20, b := 30, a := 200 } (by decide)
    exact absurd h2 (by decide)

/-- Claim C2 (amended): only pixels whose input alpha is strictly below the
threshold get their alpha forced to 255; a pixel at or above the threshold
keeps its original alpha unchanged, so partial alpha can survive into the
encoding stage. -/
theorem alphaKey_alpha (t : Nat) (frame : List Pixel) (i : Nat) (p : Pixel)
    (hp : frame[i]? = some p) :
    (mapFrame t frame)[i]? = some (mapPixel t p) ∧
    (p.a < t → (mapPixel t p).a = 255) ∧
    (t ≤ p.a → (mapPixel t p).a = p.a) := by
  refine ⟨?_, ?_, ?_⟩
  · simp [mapFrame, List.getElem?_map, hp]
  · intro h
    simp [mapPixel, h]
  · intro h
    simp [mapPixel, Nat.not_lt.mpr h]

/-- Witness for the amended C2: under threshold 128, alpha 7 becomes 255
while alpha 200 stays 200. -/
theorem alphaKey_alpha_witness :
    (mapFrame 128 [{ r := 0, g := 0, b := 0, a := 7 }])[0]? =
      some (mapPixel 128 { r := 0, g := 0, b := 0, a := 7 }) ∧
    (mapPixel 128 { r := 0, g := 0, b := 0, a := 7 }).a = 255 ∧
    (mapPixel 128 { r := 10, g := 20, b := 30, a := 200 }).a = 200 :=
  ⟨(alphaKey_alpha 128 [{ r := 0, g := 0, b := 0, a := 7 }] 0
      { r := 0, g := 0, b := 0, a := 7 } (by decide)).1,
   (alphaKey_alpha 128 [{ r := 0, g := 0, b := 0, a := 7 }] 0
      { r := 0, g := 0, b := 0, a := 7 } (by decide)).2.1 (by decide),
   (alphaKey_alpha 128 [{ r := 10, g := 20, b := 30, a := 200 }] 0
      { r := 10, g := 20, b := 30, a := 200 } (by decide)).2.2 (by decide)⟩

/-- Claim C4: the alpha-key mapping is idempotent for every threshold in
`[0, 255]` — re-running it on an already-mapped frame changes nothing. -/
theorem alphaKey_idempotent (t : Nat) (ht : t ≤ 255) (frame : List Pixel) :
    mapFrame t (mapFrame t frame) = mapFrame t frame := by
  simp only [mapFrame, List.map_map]
  refine List.map_congr_left ?_
  intro p _
  simp only [Function.comp_apply]
  by_cases h : p.a < t
  · have h255 : ¬ (255 < t) := by omega
    simp [mapPixel, h, h255]
  · simp [mapPixel, h]

/-- Witness for C4 at threshold 128 on a concrete two-pixel frame. -/
theorem alphaKey_idempotent_witness :
    mapFrame 128 (mapFrame 128 [{ r := 1, g := 2, b := 3, a := 0 },
        { r := 4, g := 5, b := 6, a := 255 }]) =
      mapFrame 128 [{ r := 1, g := 2, b := 3, a := 0 },
        { r := 4, g := 5, b := 6, a := 255 }] :=
  alphaKey_idempotent 128 (by decide)
    [{ r := 1, g := 2, b := 3, a := 0 }, { r := 4, g := 5, b := 6, a := 255 }]

/-- Claim C9: for quality `q ∈ [1,30]` the encoder work parameter is exactly
`31 - q` (hence strictly decreasing in `q`), and for every `q` — in range or
not — the passed parameter lies in `[1,30]`. -/
theorem quality_inverse (q : ℚ) :
    (1 ≤ q → q ≤ 30 → gifQuality q = 31 - q) ∧
    1 ≤ gifQuality q ∧ gifQuality q ≤ 30 ∧
    (∀ q2 : ℚ, 1 ≤ q → q < q2 → q2 ≤ 30 → gifQuality q2 < gifQuality q) := by
  refine ⟨?_, ?_, ?_, ?_⟩
  · intro h1 h2
    unfold gifQuality
    rw [min_eq_right (by linarith), max_eq_right (by linarith)]
  · exact le_max_left 1 _
  · exact max_le (by norm_num) (min_le_left _ _)
  · intro q2 h1 h2 h3
    have e1 : gifQuality q = 31 - q := by
      unfold gifQuality
      rw [min_eq_right (by linarith), max_eq_right (by linarith)]
    have e2 : gifQuality q2 = 31 - q2 := by
      unfold gifQuality
      rw [min_eq_right (by linarith), max_eq_right (by linarith)]
    rw [e1, e2]
    linarith

/-- Witness for C9 at `q = 10` (and `q2 = 20` for strict decrease). -/
theorem quality_inverse_witness :
    gifQuality 10 = 31 - 10 ∧ 1 ≤ gifQuality 10 ∧ gifQuality 10 ≤ 30 ∧
    gifQuality 20 < gifQuality 10 := by
  obtain ⟨h1, h2, h3, h4⟩ := quality_inverse 10
  exact ⟨h1 (by norm_num) (by norm_num), h2, h3,
    h4 20 (by norm_num) (by norm_num) (by norm_num)⟩

/-! ### Frame extraction: count, timestamps and progress accounting -/

/-- `extractFrames` with the cancellation flag never set, in closed form. -/
theorem extractFrames_not_cancelled (video : Video) (opts : ConversionOptions) :
    extractFrames video opts (fun _ => false) =
      ((List.range (totalFramesOf video.duration opts.fps).toNat).map
         (fun k => extractProgress (totalFramesOf video.duration opts.fps).toNat k),
       Except.ok ((List.range (totalFramesOf video.duration opts.fps).toNat).map
         (fun k => sampledFrame video opts k))) := by
  rw [extractFrames, extractGo_not_cancelled]
  simp

/-- A concrete one-second 2×2 test video whose decoder yields an empty raster
at every timestamp. -/
def testVideo : Video :=
  { duration := 1, videoWidth := 2, videoHeight := 2, frameAt := fun _ => [] }

/-- Concrete conversion options: 2 fps, quality 10, source size, threshold 128. -/
def testOptions : ConversionOptions :=
  { fps := 2, quality := 10, width := none, height := none
    transparentThreshold := 128 }

/-- Claim C1: for fps in `[1,30]` and positive duration, extraction yields
exactly `⌊duration * fps⌋` frames, frame `i` being sampled at timestamp
`i * (1/fps)`, so the sampled timestamps are strictly increasing. -/
theorem extraction_count_and_timestamps (video : Video)
    (opts : ConversionOptions) (h1 : 1 ≤ opts.fps) (h2 : opts.fps ≤ 30)
    (hd : 0 < video.duration) :
    ∃ fs : List (ℚ × List Pixel),
      (extractFrames video opts (fun _ => false)).2 = Except.ok fs ∧
      (fs.length : ℤ) = ⌊video.duration * opts.fps⌋ ∧
      (∀ i : Nat, i < fs.length → fs[i]? = some (sampledFrame video opts i)) ∧
      (∀ i : Nat, (sampledFrame video opts i).1 = (i : ℚ) * (1 / opts.fps)) ∧
      List.Pairwise (fun a b : ℚ => a < b) (fs.map Prod.fst) := by
  have hfps : (0 : ℚ) < opts.fps := by linarith
  refine ⟨(List.range (totalFramesOf video.duration opts.fps).toNat).map
    (fun k => sampledFrame video opts k), ?_, ?_, ?_, ?_, ?_⟩
  · rw [extractFrames_not_cancelled]
  · rw [List.length_map, List.length_range, totalFramesOf]
    exact Int.toNat_of_nonneg
      (Int.floor_nonneg.mpr (mul_nonneg hd.le hfps.le))
  · intro i hi
    rw [List.length_map, List.length_range] at hi
    rw [List.getElem?_map, List.getElem?_range hi, Option.map_some']
  · intro i
    rfl
  · rw [List.map_map]
    have hmap : (Prod.fst ∘ fun k : Nat => sampledFrame video opts k) =
        fun k : Nat => (k : ℚ) * frameInterval opts.fps := by
      funext k
      rfl
    rw [hmap]
    refine List.Pairwise.map _ ?_ (List.pairwise_lt_range _)
    intro a b hab
    have hpos : 0 < frameInterval opts.fps := by
      rw [frameInterval]
      exact one_div_pos.mpr hfps
    exact mul_lt_mul_of_pos_right (by exact_mod_cast hab) hpos

/-- Witness for C1 on the concrete test video (duration 1 s, 2 fps). -/
theorem extraction_count_witness :
    ∃ fs : List (ℚ × List Pixel),
      (extractFrames testVideo testOptions (fun _ => false)).2 = Except.ok fs ∧
      (fs.length : ℤ) = ⌊testVideo.duration * testOptions.fps⌋ ∧
      (∀ i : Nat, i < fs.length →
        fs[i]? = some (sampledFrame testVideo testOptions i)) ∧
      (∀ i : Nat, (sampledFrame testVideo testOptions i).1 =
        (i : ℚ) * (1 / testOptions.fps)) ∧
      List.Pairwise (fun a b : ℚ => a < b) (fs.map Prod.fst) :=
  extraction_count_and_timestamps testVideo testOptions
    (by norm_num [testOptions]) (by norm_num [testOptions])
    (by norm_num [testVideo])

/-- Claim C6: the progress record emitted after capturing frame `i` has stage
`extracting`, progress `(i+1)/totalFrames * 50` and `framesExtracted = i+1`;
and each fraction `p` the encoder reports is written as stage `encoding` with
overall progress `50 + p * 50`. -/
theorem progress_accounting (video : Video) (opts : ConversionOptions)
    (i : Nat) (hi : i < (totalFramesOf video.duration opts.fps).toNat) :
    (extractFrames video opts (fun _ => false)).1[i]? =
      some { stage := Stage.extracting
             progress := (((i : ℚ) + 1) /
               ((totalFramesOf video.duration opts.fps).toNat : ℚ)) * 50
             framesExtracted := i + 1
             totalFrames := (totalFramesOf video.duration opts.fps).toNat
             message := "Extracting frame " ++ toString (i + 1) ++ " of " ++
               toString (totalFramesOf video.duration opts.fps).toNat } ∧
    (∀ (n : Nat) (p : ℚ), (encodingEvent n p).stage = Stage.encoding ∧
      (encodingEvent n p).progress = 50 + p * 50) := by
  constructor
  · rw [extractFrames_not_cancelled]
    rw [List.getElem?_map, List.getElem?_range hi, Option.map_some']
    rfl
  · intro n p
    exact ⟨rfl, rfl⟩

/-- Witness for C6: frame 0 of the concrete test video (2 frames total). -/
theorem progress_accounting_witness :
    (extractFrames testVideo testOptions (fun _ => false)).1[0]? =
      some { stage := Stage.extracting
             progress := (((0 : ℚ) + 1) /
               ((totalFramesOf testVideo.duration testOptions.fps).toNat : ℚ)) * 50
             framesExtracted := 0 + 1
             totalFrames := (totalFramesOf testVideo.duration testOptions.fps).toNat
             message := "Extracting frame " ++ toString (0 + 1) ++ " of " ++
               toString (totalFramesOf testVideo.duration testOptions.fps).toNat } ∧
    (∀ (n : Nat) (p : ℚ), (encodingEvent n p).stage = Stage.encoding ∧
      (encodingEvent n p).progress = 50 + p * 50) :=
  progress_accounting testVideo testOptions 0
    (by norm_num [totalFramesOf, testVideo, testOptions])

/-! ### Cancellation, encoder submissions and failure handling -/

/-- Claim C5: if the cancellation flag is observed set at a check point the
sampling loop reaches, or the encoder is aborted (a `cancel()` during
encoding), `convert` rejects with `Conversion cancelled` and never resolves
with a blob; moreover the flag is read at the top of every sampling
iteration, so once it reads `true` at check point `m` at most `m` frames are
ever captured. -/
theorem cancellation_rejects (video : Video) (opts : ConversionOptions)
    (env : ConvertEnv) (hload : env.loadOk = true)
    (hc : (∃ m, m < (totalFramesOf video.duration opts.fps).toNat ∧
            env.cancelled m = true) ∨ env.encodeAborted = true) :
    (convert video opts env).result = Except.error "Conversion cancelled" ∧
    (∀ b : Nat, (convert video opts env).result ≠ Except.ok b) ∧
    (∀ m : Nat, env.cancelled m = true →
      (extractFrames video opts env.cancelled).1.length ≤ m) := by
  have hbound : ∀ m : Nat, env.cancelled m = true →
      (extractFrames video opts env.cancelled).1.length ≤ m := by
    intro m hm
    rw [extractFrames]
    exact extractGo_trace_bounded video opts _ env.cancelled _ 0 m
      (by rw [Nat.zero_add]; exact hm)
  have hres : (convert video opts env).result =
      Except.error "Conversion cancelled" := by
    rcases hc with ⟨m, hmN, hm⟩ | hab
    · have hext : (extractFrames video opts env.cancelled).2 =
          Except.error "Conversion cancelled" := by
        rw [extractFrames]
        exact extractGo_cancelled video opts _ env.cancelled _ 0 m hmN
          (by rw [Nat.zero_add]; exact hm)
      simp [convert, hload, hext]
    · cases hext : (extractFrames video opts env.cancelled).2 with
      | error e =>
        have he : e = "Conversion cancelled" := by
          rw [extractFrames] at hext
          exact extractGo_error_msg video opts _ env.cancelled _ 0 e hext
        simp [convert, hload, hext, he]
      | ok fs =>
        by_cases hca : env.cancelledAfterExtract = true
        · simp [convert, hload, hext, hca]
        · simp [convert, hload, hext, hca, hab]
  refine ⟨hres, ?_, hbound⟩
  intro b
  rw [hres]
  simp

/-- Environment in which `cancel()` was called before the first sampling
iteration: the flag reads `true` at every check point. -/
def cancelEnv : ConvertEnv :=
  { loadOk := true, cancelled := fun _ => true, cancelledAfterExtract := false
    encodeEvents := [], encodeAborted := false, blob := 0 }

/-- Witness for C5: with the flag set from the start, the concrete conversion
rejects with `Conversion cancelled` and captures no frame. -/
theorem cancellation_rejects_witness :
    (convert testVideo testOptions cancelEnv).result =
      Except.error "Conversion cancelled" ∧
    (∀ b : Nat, (convert testVideo testOptions cancelEnv).result ≠
      Except.ok b) ∧
    (∀ m : Nat, cancelEnv.cancelled m = true →
      (extractFrames testVideo testOptions cancelEnv.cancelled).1.length ≤ m) :=
  cancellation_rejects testVideo testOptions cancelEnv rfl
    (Or.inl ⟨0, by norm_num [totalFramesOf, testVideo, testOptions], rfl⟩)

/-- Claim C8: every frame submitted to the encoder carries the same options:
`copy`, a delay of exactly `round(1000/fps)` milliseconds, and disposal
mode 2 (restore to background). -/
theorem submission_options (video : Video) (opts : ConversionOptions)
    (env : ConvertEnv) (s : List Pixel × GifFrameOptions)
    (hs : s ∈ (convert video opts env).submissions) :
    s.2.delay = frameDelay opts.fps ∧ s.2.dispose = 2 ∧ s.2.copy = true := by
  by_cases hl : env.loadOk = true
  · cases hext : (extractFrames video opts env.cancelled).2 with
    | error e =>
      simp [convert, hl, hext] at hs
    | ok fs =>
      by_cases hca : env.cancelledAfterExtract = true
      · simp [convert, hl, hext, hca] at hs
      · by_cases hab : env.encodeAborted = true
        · simp only [convert, hl, if_true, hext, hca, hab,
            Bool.false_eq_true, if_false] at hs
          obtain ⟨f, _, rfl⟩ := List.mem_map.mp hs
          exact ⟨rfl, rfl, rfl⟩
        · simp only [convert, hl, if_true, hext, hca, hab,
            Bool.false_eq_true, if_false] at hs
          obtain ⟨f, _, rfl⟩ := List.mem_map.mp hs
          exact ⟨rfl, rfl, rfl⟩
  · simp [convert, hl] at hs

/-- Environment of an undisturbed successful run: the video loads, the flag
is never set, the encoder reports one progress event and finishes. -/
def goodEnv : ConvertEnv :=
  { loadOk := true, cancelled := fun _ => false, cancelledAfterExtract := false
    encodeEvents := [1 / 2], encodeAborted := false, blob := 7 }

/-- The submissions of the concrete successful run: both sampled frames are
handed over with the common options record. -/
theorem goodEnv_submissions :
    (convert testVideo testOptions goodEnv).submissions =
      [(([] : List Pixel),
        { copy := true, delay := frameDelay testOptions.fps, dispose := 2 }),
       (([] : List Pixel),
        { copy := true, delay := frameDelay testOptions.fps, dispose := 2 })] := by
  have hN : (totalFramesOf testVideo.duration testOptions.fps).toNat = 2 := by
    have h2 : totalFramesOf testVideo.duration testOptions.fps = 2 := by
      norm_num [totalFramesOf, testVideo, testOptions]
    rw [h2]
    rfl
  have hcanc : goodEnv.cancelled = fun _ => false := rfl
  simp only [convert, goodEnv, if_true, hcanc, extractFrames_not_cancelled, hN]
  simp [addFrames, sampledFrame, mapFrame, testVideo, List.range_succ]

/-- Witness for C8: the first submission of the concrete successful run. -/
theorem submission_options_witness :
    ((([] : List Pixel),
        ({ copy := true, delay := frameDelay testOptions.fps, dispose := 2 } :
          GifFrameOptions)) :
      List Pixel × GifFrameOptions).2.delay = frameDelay testOptions.fps ∧
    ((([] : List Pixel),
        ({ copy := true, delay := frameDelay testOptions.fps, dispose := 2 } :
          GifFrameOptions)) :
      List Pixel × GifFrameOptions).2.dispose = 2 ∧
    ((([] : List Pixel),
        ({ copy := true, delay := frameDelay testOptions.fps, dispose := 2 } :
          GifFrameOptions)) :
      List Pixel × GifFrameOptions).2.copy = true :=
  submission_options testVideo testOptions goodEnv _
    (by rw [goodEnv_submissions]; exact List.mem_cons_self _ _)

/-- Environment in which `cancel()` arrives while the encoder is running:
the video loads, extraction completes uncancelled, the encoder reports one
progress event and is then aborted. -/
def abortEnv : ConvertEnv :=
  { loadOk := true, cancelled := fun _ => false, cancelledAfterExtract := false
    encodeEvents := [1 / 2], encodeAborted := true, blob := 0 }

/-- Claim C10 fails on the code at this input: when `cancel()` lands during
encoding, `convert` rejects with `Conversion cancelled`, yet the last
progress record written is the encoder's progress event for fraction `1/2`
(stage `encoding`, `framesExtracted = 2`), not the zeroed `error` record —
the encoder promise is returned from inside `try` without `await`, so its
abort rejection bypasses the `catch` block that writes that record. -/
theorem abort_skips_error_record :
    (convert testVideo testOptions abortEnv).result =
      Except.error "Conversion cancelled" ∧
    (convert testVideo testOptions abortEnv).trace.getLast? =
      some (encodingEvent 2 (1 / 2)) ∧
    (encodingEvent 2 (1 / 2)).stage = Stage.encoding ∧
    (encodingEvent 2 (1 / 2)).framesExtracted = 2 := by
  have hN : (totalFramesOf testVideo.duration testOptions.fps).toNat = 2 := by
    have h2 : totalFramesOf testVideo.duration testOptions.fps = 2 := by
      norm_num [totalFramesOf, testVideo, testOptions]
    rw [h2]
    rfl
  have hcanc : abortEnv.cancelled = fun _ => false := rfl
  refine ⟨?_, ?_, rfl, rfl⟩
  · simp only [convert, abortEnv, if_true, hcanc, extractFrames_not_cancelled,
      hN]
    simp [List.range_succ]
  · simp only [convert, abortEnv, if_true, hcanc, extractFrames_not_cancelled,
      hN]
    simp [List.range_succ, List.getLast?_append]

/-! ### Stage ordering over a whole run -/

/-- The stage list emitted by the sampling loop is a block of `extracting`. -/
theorem extract_trace_map (video : Video) (opts : ConversionOptions)
    (c : Nat → Bool) :
    (extractFrames video opts c).1.map ProgressState.stage =
      List.replicate (extractFrames video opts c).1.length Stage.extracting := by
  refine List.eq_replicate_iff.mpr ⟨by simp, ?_⟩
  intro s hs
  obtain ⟨p, hp, rfl⟩ := List.mem_map.mp hs
  exact extractGo_trace_stage video opts _ c _ 0 p hp

/-- The stage list of the encoder progress events is a block of `encoding`. -/
theorem encode_events_map (n : Nat) (evs : List ℚ) :
    (evs.map (encodingEvent n)).map ProgressState.stage =
      List.replicate evs.length Stage.encoding := by
  rw [List.map_map]
  have h : (ProgressState.stage ∘ encodingEvent n) =
      fun _ : ℚ => Stage.encoding := by
    funext p
    rfl
  rw [h, List.map_const']

/-- Chains after the encoding block: the tail is either empty (a run cut
off by an encoder abort writes nothing after its last encoding record) or a
single terminal stage. -/
theorem chain_enc_block :
    ∀ (b : Nat) (tail : List Stage),
      (tail = [] ∨ ∃ t, stageRank t = 3 ∧ tail = [t]) →
      ∀ s : Stage, stageRank s ≤ 2 →
      List.Chain' stageStep (s :: (List.replicate b Stage.encoding ++ tail))
  | 0, tail => by
    intro htail s hs
    rcases htail with rfl | ⟨t, h3, rfl⟩
    · simp only [List.replicate, List.nil_append]
      exact List.chain'_singleton s
    · simp only [List.replicate, List.nil_append]
      rw [List.chain'_pair]
      exact ⟨by omega, by omega⟩
  | b + 1, tail => by
    intro htail s hs
    rw [List.replicate_succ, List.cons_append, List.chain'_cons]
    have he : stageRank Stage.encoding = 2 := rfl
    exact ⟨⟨by omega, by omega⟩,
      chain_enc_block b tail htail Stage.encoding (by omega)⟩

/-- Chains through the extracting block, the encoding block and the final
tail. -/
theorem chain_ext_block :
    ∀ (a b : Nat) (tail : List Stage),
      (tail = [] ∨ ∃ t, stageRank t = 3 ∧ tail = [t]) →
      ∀ s : Stage, stageRank s ≤ 1 →
      List.Chain' stageStep
        (s :: (List.replicate a Stage.extracting ++
          (List.replicate b Stage.encoding ++ tail)))
  | 0, b, tail => by
    intro htail s hs
    simpa using chain_enc_block b tail htail s (by omega)
  | a + 1, b, tail => by
    intro htail s hs
    rw [List.replicate_succ, List.cons_append, List.chain'_cons]
    have he : stageRank Stage.extracting = 1 := rfl
    exact ⟨⟨by omega, by omega⟩,
      chain_ext_block a b tail htail Stage.extracting (by omega)⟩

/-- Every run's trace of stages is: one `extracting` block (the loading
record plus one record per captured frame), then possibly one `encoding`
block, then at most one terminal stage (none when the run is cut off by an
encoder abort). -/
theorem convert_stage_shape (video : Video) (opts : ConversionOptions)
    (env : ConvertEnv) :
    ∃ (a b : Nat) (tail : List Stage),
      (tail = [] ∨ ∃ t, stageRank t = 3 ∧ tail = [t]) ∧
      (convert video opts env).trace.map ProgressState.stage =
        Stage.extracting :: (List.replicate a Stage.extracting ++
          (List.replicate b Stage.encoding ++ tail)) := by
  by_cases hl : env.loadOk = true
  · cases hext : (extractFrames video opts env.cancelled).2 with
    | error e =>
      refine ⟨(extractFrames video opts env.cancelled).1.length, 0,
        [Stage.error], Or.inr ⟨Stage.error, rfl, rfl⟩, ?_⟩
      simp only [convert, hl, if_true, hext, List.map_append, List.map_cons,
        List.map_nil, extract_trace_map]
      rfl
    | ok fs =>
      by_cases hca : env.cancelledAfterExtract = true
      · refine ⟨(extractFrames video opts env.cancelled).1.length, 0,
          [Stage.error], Or.inr ⟨Stage.error, rfl, rfl⟩, ?_⟩
        simp only [convert, hl, if_true, hext, hca, List.map_append,
          List.map_cons, List.map_nil, extract_trace_map]
        rfl
      · by_cases hab : env.encodeAborted = true
        · refine ⟨(extractFrames video opts env.cancelled).1.length,
            env.encodeEvents.length + 1, [], Or.inl rfl, ?_⟩
          simp only [convert, hl, if_true, hext, hca, hab,
            Bool.false_eq_true, if_false, List.map_append, List.map_cons,
            extract_trace_map, encode_events_map, List.replicate_succ,
            List.cons_append, List.append_nil]
          simp [loadingState, encodingStart]
        · refine ⟨(extractFrames video opts env.cancelled).1.length,
            env.encodeEvents.length + 1, [Stage.complete],
            Or.inr ⟨Stage.complete, rfl, rfl⟩, ?_⟩
          simp only [convert, hl, if_true, hext, hca, hab,
            Bool.false_eq_true, if_false, List.map_append, List.map_cons,
            List.map_nil, extract_trace_map, encode_events_map,
            List.replicate_succ, List.cons_append]
          simp [loadingState, encodingStart, completeState, List.append_assoc]
  · refine ⟨0, 0, [Stage.error], Or.inr ⟨Stage.error, rfl, rfl⟩, ?_⟩
    simp only [convert, hl, Bool.false_eq_true, if_false]
    rfl

/-- Claim C7: over any run, the written stages follow the strict pipeline
order `idle → extracting → encoding → {complete | error}`: consecutive
writes never move backwards in the order, no earlier stage is re-entered,
and nothing is written after a terminal stage. -/
theorem stage_order (video : Video) (opts : ConversionOptions)
    (env : ConvertEnv) :
    List.Chain' stageStep ((runTrace video opts env).map ProgressState.stage) := by
  obtain ⟨a, b, tail, htail, hshape⟩ := convert_stage_shape video opts env
  rw [runTrace, List.map_cons, hshape]
  have hid : idleState.stage = Stage.idle := rfl
  rw [hid]
  have hcollect : Stage.idle :: Stage.extracting ::
      (List.replicate a Stage.extracting ++
        (List.replicate b Stage.encoding ++ tail)) =
      Stage.idle :: (List.replicate (a + 1) Stage.extracting ++
        (List.replicate b Stage.encoding ++ tail)) := by
    rw [List.replicate_succ, List.cons_append]
  rw [hcollect]
  exact chain_ext_block (a + 1) b tail htail Stage.idle (by decide)

end WebmToGif
